import Mathlib

/-!
Shallow embedding of the Biddle attrition-model simulator
(`biddle3.py`, whose per-scenario engine is shared with `biddle2.py`).

Modelling conventions:
* Python floats are modelled as exact rationals (`ℚ`).  `EPSILON = 1e-9`
  becomes the exact rational `1/10^9`.
* The two `math.pow` calls (`math.pow(TR_calc, exp_ps)` on line 109 and
  `math.pow(T_rho_calc, k4_in)` on line 116 of `biddle3.py`) are real-number
  exponentiations that leave `ℚ`; their results enter the engine as oracle
  parameters `psPow : Option ℚ` (with `none` modelling the caught
  `ValueError`/`OverflowError`) and `rhoPow : ℚ`.  All universally quantified
  theorems hold for every oracle value; concrete instances use the exact
  value the float computation produces (inputs are chosen so that it is an
  exact rational).
* IEEE special values produced by `float('inf')` arithmetic are modelled by
  the `EF` type (finite / +inf / -inf / NaN) with the IEEE propagation rules
  for the operations the code performs.
-/

namespace Biddle

/-- Extended float: a finite rational, positive infinity, negative infinity,
or NaN.  Mirrors the IEEE values that can flow through `rho1_calc` and
`delta_r_daily_rate` in `biddle3.py`. -/
inductive EF where
  | fin (q : ℚ)
  | inf
  | ninf
  | nan
deriving DecidableEq

/-- IEEE addition on extended floats (only the cases the code can reach
matter; the table is the full IEEE one). -/
def EF.add : EF → EF → EF
  | .nan, _ => .nan
  | _, .nan => .nan
  | .fin a, .fin b => .fin (a + b)
  | .fin _, .inf => .inf
  | .inf, .fin _ => .inf
  | .fin _, .ninf => .ninf
  | .ninf, .fin _ => .ninf
  | .inf, .inf => .inf
  | .ninf, .ninf => .ninf
  | .inf, .ninf => .nan
  | .ninf, .inf => .nan

/-- IEEE multiplication on extended floats. -/
def EF.mul : EF → EF → EF
  | .nan, _ => .nan
  | _, .nan => .nan
  | .fin a, .fin b => .fin (a * b)
  | .fin a, .inf => if 0 < a then .inf else if a < 0 then .ninf else .nan
  | .inf, .fin b => if 0 < b then .inf else if b < 0 then .ninf else .nan
  | .fin a, .ninf => if 0 < a then .ninf else if a < 0 then .inf else .nan
  | .ninf, .fin b => if 0 < b then .ninf else if b < 0 then .inf else .nan
  | .inf, .inf => .inf
  | .inf, .ninf => .ninf
  | .ninf, .inf => .ninf
  | .ninf, .ninf => .inf

/-- The IEEE test `x < 0` (false on NaN), used by the floor-at-zero guards. -/
def EF.lt0 : EF → Bool
  | .fin a => decide (a < 0)
  | .ninf => true
  | _ => false

/-- The floor-at-zero idiom `if x < 0: x = 0` of the Python code. -/
def EF.floorz (e : EF) : EF := if e.lt0 = true then EF.fin 0 else e

/-- Finite value of an extended float.  The engine only ever subtracts
`delta_r` from `rt` when it is finite (the advance branch requires
`Va > EPSILON`, which rules out NaN, and explicitly tests for `inf`),
so the junk value `0` for the non-finite cases is never reached there. -/
def EF.toQ : EF → ℚ
  | .fin a => a
  | _ => 0

/-- Predicate of claim C4 for `delta_r`: non-negative finite value or the
positive-infinity sentinel. -/
def EF.nonnegOrInf : EF → Bool
  | .fin a => decide (0 ≤ a)
  | .inf => true
  | _ => false

/-- Epsilon used by the Python code (`EPSILON = 1e-9`), as an exact rational. -/
def EPSILON : ℚ := 1 / 1000000000

/-- Day-cap safeguard (`MAX_SIMULATION_DAYS = 1000`). -/
def MAX_SIMULATION_DAYS : ℕ := 1000

/-- The 19 scenario input variables, plus nothing else: one scenario's fully
parsed parameter set (the `inputs` dict of `simulate_one_scenario`). -/
structure Inputs where
  R : ℚ
  B : ℚ
  YR : ℚ
  YB : ℚ
  d : ℚ
  fr : ℚ
  fe : ℚ
  Vr : ℚ
  Va : ℚ
  wa : ℚ
  wth : ℚ
  k1 : ℚ
  k2 : ℚ
  k3 : ℚ
  k4 : ℚ
  k5 : ℚ
  k6 : ℚ
  k7 : ℚ
  k8 : ℚ
  k9 : ℚ
deriving DecidableEq

/-- Derived parameters, computed once per scenario
(`biddle3.py` lines 92-134). -/
structure Derived where
  wthN : ℚ
  dN : ℚ
  TR : ℚ
  TB : ℚ
  TC : ℚ
  Trho : ℚ
  Ps : ℚ
  H : ℚ
  rho1 : EF
  rho2 : ℚ
  r0 : ℚ
  b0 : ℚ
  Ca : ℚ
  deltaR : EF
deriving DecidableEq

/-- Normalized theater frontage (`biddle3.py` line 94:
`if wth_in <= EPSILON: wth_in = EPSILON`). -/
def wthNc (i : Inputs) : ℚ := if i.wth ≤ EPSILON then EPSILON else i.wth

/-- Normalized depth (`biddle3.py` line 95: `if d_in <= 0: d_in = EPSILON`). -/
def dNc (i : Inputs) : ℚ := if i.d ≤ 0 then EPSILON else i.d

/-- `TR_calc` (line 97). -/
def TRc (i : Inputs) : ℚ := if 1900 ≤ i.YR then (i.YR - 1900) / 10 else 0

/-- `TB_calc` (line 98). -/
def TBc (i : Inputs) : ℚ := if 1900 ≤ i.YB then (i.YB - 1900) / 10 else 0

/-- `TC_calc` (line 100). -/
def TCc (i : Inputs) : ℚ :=
  if -EPSILON < TRc i then TBc i ^ 2 / (TRc i + EPSILON) else TBc i ^ 2 / EPSILON

/-- `T_rho_calc` (line 101). -/
def Trhoc (i : Inputs) : ℚ :=
  if -EPSILON < TBc i then TRc i ^ 2 / (TBc i + EPSILON) else TRc i ^ 2 / EPSILON

/-- `Ps_calc` (lines 103-112); `psPow` is the value `math.pow(TR_calc, -k2*Vr)`
returned (`none` when the call raised, which the code turns into `0`). -/
def Psc (i : Inputs) (psPow : Option ℚ) : ℚ :=
  if TRc i ≤ EPSILON then 0 else
    match psPow with
    | none => 0
    | some v => min (max v 0) 1

/-- `H_calc` (line 114). -/
def Hc (i : Inputs) : ℚ := i.k1 * (1 - i.fe)

/-- `rho1_denominator` (line 116): `math.pow(T_rho_calc, k4_in)` when
`T_rho_calc >= 0`, else `float('nan')` (modelled as `none`). -/
def rho1den (i : Inputs) (rhoPow : ℚ) : Option ℚ :=
  if 0 ≤ Trhoc i then some rhoPow else none

/-- `rho1_calc` (lines 117-120). -/
def rho1c (i : Inputs) (psPow : Option ℚ) (rhoPow : ℚ) : EF :=
  let num := i.k9 * i.B * i.fr * Psc i psPow
  match rho1den i rhoPow with
  | none => if 0 < num then EF.inf else EF.fin 0
  | some v => if |v| < EPSILON then (if 0 < num then EF.inf else EF.fin 0)
              else EF.fin (num / v)

/-- `rho2_calc` (line 124). -/
def rho2c (i : Inputs) : ℚ := i.k3 * i.B * (1 - i.fr) / wthNc i

/-- `r0_initial_calc` (line 125). -/
def r0c (i : Inputs) : ℚ := i.R - rho2c i * (wthNc i - i.wa)

/-- `b0_initial_calc` (line 126). -/
def b0c (i : Inputs) : ℚ := i.B * (1 - i.fr) * i.wa / (wthNc i * dNc i)

/-- `Ca_static_calc` (lines 128-129, including the floor at 0). -/
def Cac (i : Inputs) : ℚ :=
  let c := i.k7 * (1 - i.fe) * TCc i * b0c i * (i.Va + i.k8)
  if c < 0 then 0 else c

/-- `delta_r_daily_rate` (lines 131-132), IEEE arithmetic with a possibly
infinite `rho1_calc`, floored at zero. -/
def deltaRc (i : Inputs) (psPow : Option ℚ) (rhoPow : ℚ) : EF :=
  EF.floorz (EF.add (EF.fin (Cac i * i.Va))
    (EF.mul (EF.mul (EF.fin 2) (rho1c i psPow rhoPow)) (EF.fin i.Va)))

/-- Parameter derivation: the static block of `simulate_one_scenario`
(`biddle3.py` lines 92-134) bundled into one record. -/
def derive (i : Inputs) (psPow : Option ℚ) (rhoPow : ℚ) : Derived :=
  { wthN := wthNc i, dN := dNc i, TR := TRc i, TB := TBc i, TC := TCc i,
    Trho := Trhoc i, Ps := Psc i psPow, H := Hc i,
    rho1 := rho1c i psPow rhoPow, rho2 := rho2c i,
    r0 := r0c i, b0 := b0c i, Ca := Cac i, deltaR := deltaRc i psPow rhoPow }

theorem EPSILON_pos : 0 < EPSILON := by norm_num [EPSILON]

theorem Psc_mem (i : Inputs) (ps : Option ℚ) :
    0 ≤ Psc i ps ∧ Psc i ps ≤ 1 := by
  cases ps <;> unfold Psc <;> split <;>
    simp [le_min_iff, min_le_iff, le_max_iff]

theorem wthNc_pos (i : Inputs) : 0 < wthNc i := by
  unfold wthNc
  split
  · exact EPSILON_pos
  · linarith [EPSILON_pos]

theorem dNc_pos (i : Inputs) : 0 < dNc i := by
  unfold dNc
  split
  · exact EPSILON_pos
  · linarith

theorem EF.floorz_toQ_nonneg (e : EF) : 0 ≤ e.floorz.toQ := by
  cases e <;> simp only [EF.floorz, EF.lt0, EF.toQ] <;> try simp
  rename_i q
  by_cases h : q < 0 <;> simp [h, EF.toQ]
  all_goals linarith

theorem deltaRc_toQ_nonneg (i : Inputs) (ps : Option ℚ) (rp : ℚ) :
    0 ≤ (deltaRc i ps rp).toQ :=
  EF.floorz_toQ_nonneg _

theorem rho1c_shape (i : Inputs) (ps : Option ℚ) (rp : ℚ) :
    rho1c i ps rp = EF.inf ∨ ∃ q, rho1c i ps rp = EF.fin q := by
  unfold rho1c rho1den
  simp only []
  split <;> split_ifs <;> simp

/-- Mutable per-scenario simulation state: the variables of
`simulate_one_scenario` that survive from one loop iteration to the next
(`biddle3.py` lines 136-149).  Flags are `ℕ` with values 0/1, like the
Python ints. -/
structure SimState where
  rt : ℚ
  bt : ℚ
  G : ℚ
  CR : ℚ
  CB : ℚ
  active : Bool
  btFlag : ℕ
  hFlag : ℕ
deriving DecidableEq

/-- Numeric content of one `daily_row` (`biddle3.py` lines 216-243); the
echoed inputs and the string formatting are omitted.  `btStatusEod` is the
loop-local `current_breakthrough_status_eod`. -/
structure DailyRec where
  day : ℕ
  rtSod : ℚ
  btSod : ℚ
  reinf : ℚ
  km : ℚ
  G : ℚ
  invCas : ℚ
  CR : ℚ
  defCasPoa : ℚ
  defCasRes : ℚ
  defCasTotal : ℚ
  CB : ℚ
  rtEod : ℚ
  btEod : ℚ
  haltCondMet : ℕ
  btStatusEod : ℕ
  continues : ℕ
deriving DecidableEq

/-- `halt_condition_met_sod` (line 167):
`1 if rt_sod <= H_calc * bt_sod + EPSILON or rt_sod < EPSILON else 0`. -/
def haltCondMetSod (dv : Derived) (s : SimState) : ℕ :=
  if s.rt ≤ dv.H * s.bt + EPSILON ∨ s.rt < EPSILON then 1 else 0

/-- Whether today's reserve movement window is still open (line 176-178):
`(day - 1) < wth/Vr` with an infinite window when `Vr ≤ EPSILON`. -/
def inWindow (i : Inputs) (dv : Derived) (day : ℕ) : Bool :=
  if EPSILON < i.Vr then decide (((day : ℚ) - 1) < dv.wthN / i.Vr) else true

/-- `reinforcements_today_survived` (line 179). -/
def reinfToday (i : Inputs) (dv : Derived) (day : ℕ) : ℚ :=
  if inWindow i dv day = true then i.B * i.fr * i.Vr * dv.Ps / dv.wthN else 0

/-- `def_cas_reserves_today` (lines 180-183, floored at 0). -/
def defCasResToday (i : Inputs) (dv : Derived) (day : ℕ) : ℚ :=
  if inWindow i dv day = true ∧ EPSILON < i.Vr then
    let c := i.B * i.fr * i.Vr / dv.wthN * (1 - dv.Ps)
    if c < 0 then 0 else c
  else 0

/-- Shared tail of a loop iteration (lines 205-244): accumulate defender
casualties, evaluate the end-of-day breakthrough status (with its override
of any halt recorded the same day), and produce the daily record.  The
per-day quantities are passed in; `s` already holds the post-branch values
of `rt/bt/G/CR`. -/
def finishDay (dv : Derived) (day : ℕ) (s : SimState)
    (rtSod btSod reinf km invCas dcp dcr rtEod btEod : ℚ) (hcm : ℕ) :
    SimState × DailyRec :=
  let CBnew := s.CB + (dcp + dcr)
  let btS : ℕ := if dv.dN - EPSILON ≤ s.G then 1 else 0
  let sOut : SimState :=
    { s with CB := CBnew,
             btFlag := if btS = 1 then 1 else s.btFlag,
             hFlag := if btS = 1 then 0 else s.hFlag,
             active := if btS = 1 then false else s.active }
  (sOut,
   { day := day, rtSod := rtSod, btSod := btSod, reinf := reinf, km := km,
     G := s.G, invCas := invCas, CR := s.CR, defCasPoa := dcp,
     defCasRes := dcr, defCasTotal := dcp + dcr, CB := CBnew,
     rtEod := rtEod, btEod := btEod, haltCondMet := hcm, btStatusEod := btS,
     continues := if sOut.active = true then 1 else 0 })

/-- One iteration of the daily loop body (`biddle3.py` lines 158-244),
acting on an active state. -/
def dayStep (i : Inputs) (dv : Derived) (day : ℕ) (s : SimState) :
    SimState × DailyRec :=
  if haltCondMetSod dv s = 1 ∨ (i.Va ≤ EPSILON ∧ 0 < day) ∨ dv.deltaR = EF.inf then
    -- halt/stop branch (lines 169-174): freeze rt/bt, no advance
    finishDay dv day
      { s with active := false,
               hFlag := if haltCondMetSod dv s = 1 ∧ s.btFlag = 0 then 1
                        else s.hFlag }
      s.rt s.bt 0 0 0 0 0 s.rt s.bt (haltCondMetSod dv s)
  else
    -- advance branch (lines 175-203)
    let reinf := reinfToday i dv day
    let dcr := defCasResToday i dv day
    let km := i.Va
    let invCas := if dv.Ca * km < 0 then 0 else dv.Ca * km
    let dcp := if dv.b0 * km < 0 then 0 else dv.b0 * km
    let rtEod := if s.rt - dv.deltaR.toQ < 0 then 0 else s.rt - dv.deltaR.toQ
    finishDay dv day
      { s with rt := rtEod, bt := s.bt + reinf, G := s.G + km,
               CR := s.CR + invCas }
      s.rt s.bt reinf km invCas dcp dcr rtEod (s.bt + reinf) 0

/-- The daily loop (`for day in range(1, MAX_SIMULATION_DAYS + 1)`, lines
152-247), driven by the remaining-day fuel.  Returns
`(final_day_of_simulation, final state, daily log)`.  When the fuel runs
out the loop has exhausted all days, so `final_day = MAX_SIMULATION_DAYS`
(note the early-exit check at the top of the Python loop is dead code: the
loop always breaks at the bottom of the iteration that clears
`simulation_active`). -/
def simLoop (i : Inputs) (dv : Derived) :
    ℕ → ℕ → SimState → ℕ × SimState × List DailyRec
  | 0, _, s => (MAX_SIMULATION_DAYS, s, [])
  | fuel + 1, day, s =>
    let p := dayStep i dv day s
    if p.1.active = true then
      let q := simLoop i dv fuel (day + 1) p.1
      (q.1, q.2.1, p.2 :: q.2.2)
    else
      (day, p.1, [p.2])

/-- Scenario summary (`final_outcomes`, lines 257-273): the numeric fields. -/
structure FinalOutcome where
  duration : ℕ
  G : ℚ
  CR : ℚ
  CB : ℚ
  invTotal : ℚ
  defTotal : ℚ
  btFlag : ℕ
  hFlag : ℕ
deriving DecidableEq

/-- Initial daily-simulation state (lines 136-148):
`rt = r0` floored at 0, `bt = b0`, all accumulators zero. -/
def initState (dv : Derived) : SimState :=
  { rt := if dv.r0 < 0 then 0 else dv.r0, bt := dv.b0, G := 0, CR := 0,
    CB := 0, active := true, btFlag := 0, hFlag := 0 }

/-- Whole-scenario simulation: derivation, the day loop from day 1, the
post-hoc halt reclassification when the day cap was exhausted while still
running (lines 249-254), and the final-outcome record (lines 257-273). -/
def simulate (i : Inputs) (psPow : Option ℚ) (rhoPow : ℚ) :
    FinalOutcome × List DailyRec :=
  let dv := derive i psPow rhoPow
  let q := simLoop i dv MAX_SIMULATION_DAYS 1 (initState dv)
  let s := q.2.1
  let hFlagFinal : ℕ :=
    if q.1 = MAX_SIMULATION_DAYS ∧ s.active = true ∧ s.btFlag = 0 ∧
       s.hFlag = 0 ∧ (s.rt ≤ dv.H * s.bt + EPSILON ∨ s.rt < EPSILON) then 1
    else s.hFlag
  ({ duration := q.1, G := s.G, CR := s.CR, CB := s.CB,
     invTotal := s.CR + i.k5, defTotal := s.CB + i.k6,
     btFlag := s.btFlag, hFlag := hFlagFinal }, q.2.2)

/-! Step lemmas: facts about a single day's transition. -/

theorem advGuard_Va {i : Inputs} {dv : Derived} {day : ℕ} {s : SimState}
    (h : ¬(haltCondMetSod dv s = 1 ∨ (i.Va ≤ EPSILON ∧ 0 < day) ∨
           dv.deltaR = EF.inf))
    (hday : 0 < day) : EPSILON < i.Va := by
  simp only [not_or, not_and, not_lt] at h
  by_contra hc
  push_neg at hc
  have := h.2.1 hc
  omega

theorem dayStep_rec_eqs (i : Inputs) (dv : Derived) (day : ℕ) (s : SimState) :
    ((dayStep i dv day s).2).rtSod = s.rt ∧
    ((dayStep i dv day s).2).btSod = s.bt ∧
    ((dayStep i dv day s).2).rtEod = (dayStep i dv day s).1.rt ∧
    ((dayStep i dv day s).2).btEod = (dayStep i dv day s).1.bt ∧
    ((dayStep i dv day s).2).G = (dayStep i dv day s).1.G ∧
    ((dayStep i dv day s).2).CR = (dayStep i dv day s).1.CR ∧
    ((dayStep i dv day s).2).CB = (dayStep i dv day s).1.CB ∧
    ((dayStep i dv day s).2).day = day ∧
    (dayStep i dv day s).1.CR = s.CR + ((dayStep i dv day s).2).invCas ∧
    (dayStep i dv day s).1.CB = s.CB + ((dayStep i dv day s).2).defCasTotal := by
  unfold dayStep finishDay
  split <;> simp_all

theorem dayStep_G_mono (i : Inputs) (dv : Derived) (day : ℕ) (s : SimState)
    (hday : 0 < day) :
    s.G ≤ (dayStep i dv day s).1.G := by
  unfold dayStep finishDay
  split
  · simp
  · rename_i h
    have hva := advGuard_Va h hday
    simp
    linarith [EPSILON_pos]

theorem dayStep_G_ub (i : Inputs) (dv : Derived) (day : ℕ) (s : SimState)
    (hva : 0 ≤ i.Va) :
    (dayStep i dv day s).1.G ≤ s.G + i.Va := by
  unfold dayStep finishDay
  split <;> simp
  all_goals linarith

theorem dayStep_rt_mono (i : Inputs) (dv : Derived) (day : ℕ) (s : SimState)
    (h0 : 0 ≤ s.rt) (hd : 0 ≤ dv.deltaR.toQ) :
    (dayStep i dv day s).1.rt ≤ s.rt ∧ 0 ≤ (dayStep i dv day s).1.rt := by
  unfold dayStep finishDay
  split
  · simp [h0]
  · by_cases hc : s.rt - dv.deltaR.toQ < 0
    · simp [hc]
      linarith
    · simp [hc]
      constructor <;> linarith

theorem dayStep_bt_nonneg (i : Inputs) (dv : Derived) (day : ℕ) (s : SimState)
    (hb : 0 ≤ s.bt) (hB : 0 ≤ i.B) (hfr : 0 ≤ i.fr) (hVr : 0 ≤ i.Vr)
    (hPs : 0 ≤ dv.Ps) (hw : 0 < dv.wthN) :
    0 ≤ (dayStep i dv day s).1.bt := by
  have hreinf : 0 ≤ reinfToday i dv day := by
    unfold reinfToday
    split
    · positivity
    · exact le_refl 0
  unfold dayStep finishDay
  split <;> simp <;> linarith

theorem dayStep_btS_flags (i : Inputs) (dv : Derived) (day : ℕ) (s : SimState) :
    ((dayStep i dv day s).2).btStatusEod = 1 →
    (dayStep i dv day s).1.btFlag = 1 ∧ (dayStep i dv day s).1.hFlag = 0 ∧
    (dayStep i dv day s).1.active = false := by
  unfold dayStep finishDay
  split <;> split_ifs <;> simp_all

theorem dayStep_flags (i : Inputs) (dv : Derived) (day : ℕ) (s : SimState)
    (hb : s.btFlag = 0) (hh : s.hFlag = 0) (ha : s.active = true)
    (hva : EPSILON < i.Va) (hdr : dv.deltaR ≠ EF.inf) :
    ((dayStep i dv day s).1.active = true ∧ (dayStep i dv day s).1.btFlag = 0 ∧
      (dayStep i dv day s).1.hFlag = 0) ∨
    ((dayStep i dv day s).1.active = false ∧
      (((dayStep i dv day s).1.btFlag = 1 ∧ (dayStep i dv day s).1.hFlag = 0) ∨
       ((dayStep i dv day s).1.btFlag = 0 ∧ (dayStep i dv day s).1.hFlag = 1))) := by
  unfold dayStep finishDay
  split
  · rename_i hguard
    have hcm : haltCondMetSod dv s = 1 := by
      rcases hguard with h1 | h2 | h3
      · exact h1
      · exact absurd h2.1 (by linarith)
      · exact absurd h3 hdr
    split_ifs <;> simp_all
  · split_ifs <;> simp_all
    all_goals exact lt_or_ge _ _

theorem dayStep_btFlag_G (i : Inputs) (dv : Derived) (day : ℕ) (s : SimState)
    (hday : 0 < day)
    (hprev : s.btFlag = 1 → dv.dN - EPSILON ≤ s.G) :
    (dayStep i dv day s).1.btFlag = 1 →
    dv.dN - EPSILON ≤ (dayStep i dv day s).1.G := by
  unfold dayStep finishDay
  split
  · split_ifs <;> simp_all
  · rename_i hguard
    have hva := advGuard_Va hguard hday
    split_ifs <;> simp_all
    all_goals
      intro hbt
      by_cases hx : dv.dN ≤ s.G + i.Va + EPSILON
      · exact hx
      · push_neg at hx
        have h1 := hprev (hbt hx)
        linarith [EPSILON_pos]

/-! Loop lemmas: invariants of the daily loop, by induction on the
remaining-day fuel. -/

theorem simLoop_stop_first (i : Inputs) (dv : Derived) (fuel day : ℕ)
    (s : SimState) (h : (dayStep i dv day s).1.active = false) :
    simLoop i dv (fuel + 1) day s =
      (day, (dayStep i dv day s).1, [(dayStep i dv day s).2]) := by
  simp [simLoop, h]

theorem simLoop_flags (i : Inputs) (dv : Derived)
    (hva : EPSILON < i.Va) (hdr : dv.deltaR ≠ EF.inf) :
    ∀ (fuel day : ℕ) (s : SimState), 0 < day →
    s.active = true → s.btFlag = 0 → s.hFlag = 0 →
    ((simLoop i dv fuel day s).2.1.active = true ∧
     (simLoop i dv fuel day s).2.1.btFlag = 0 ∧
     (simLoop i dv fuel day s).2.1.hFlag = 0 ∧
     (simLoop i dv fuel day s).1 = MAX_SIMULATION_DAYS) ∨
    ((simLoop i dv fuel day s).2.1.active = false ∧
     (((simLoop i dv fuel day s).2.1.btFlag = 1 ∧
       (simLoop i dv fuel day s).2.1.hFlag = 0) ∨
      ((simLoop i dv fuel day s).2.1.btFlag = 0 ∧
       (simLoop i dv fuel day s).2.1.hFlag = 1))) := by
  intro fuel
  induction fuel with
  | zero =>
    intro day s hday ha hb hh
    left
    exact ⟨ha, hb, hh, rfl⟩
  | succ n ih =>
    intro day s hday ha hb hh
    rcases dayStep_flags i dv day s hb hh ha hva hdr with hgood | hstop
    · have hact : (dayStep i dv day s).1.active = true := hgood.1
      simp only [simLoop, hact, if_pos]
      exact ih (day + 1) (dayStep i dv day s).1 (by omega) hgood.1 hgood.2.1
        hgood.2.2
    · have hact : (dayStep i dv day s).1.active = false := hstop.1
      simp only [simLoop, hact]
      simp
      right
      exact ⟨hstop.1, hstop.2⟩

theorem simLoop_btS (i : Inputs) (dv : Derived) :
    ∀ (fuel day : ℕ) (s : SimState),
    ∀ r ∈ (simLoop i dv fuel day s).2.2, r.btStatusEod = 1 →
    (simLoop i dv fuel day s).2.1.btFlag = 1 ∧
    (simLoop i dv fuel day s).2.1.hFlag = 0 := by
  intro fuel
  induction fuel with
  | zero => intro day s r hr; simp [simLoop] at hr
  | succ n ih =>
    intro day s r hr hbs
    by_cases hact : (dayStep i dv day s).1.active = true
    · simp only [simLoop, hact, if_pos] at hr ⊢
      simp at hr
      rcases hr with hr0 | hrrest
      · subst hr0
        have := dayStep_btS_flags i dv day s hbs
        rw [this.2.2] at hact
        exact absurd hact (by simp)
      · exact ih (day + 1) (dayStep i dv day s).1 r hrrest hbs
    · simp only [Bool.not_eq_true] at hact
      rw [simLoop_stop_first i dv n day s hact] at hr ⊢
      simp at hr
      subst hr
      have := dayStep_btS_flags i dv day s hbs
      exact ⟨this.1, this.2.1⟩

theorem simLoop_G_ub (i : Inputs) (dv : Derived) (hva : 0 ≤ i.Va) :
    ∀ (fuel day : ℕ) (s : SimState), 0 < day →
    (day : ℚ) + (fuel : ℚ) ≤ (MAX_SIMULATION_DAYS : ℚ) + 1 →
    s.G ≤ i.Va * ((day : ℚ) - 1) →
    (simLoop i dv fuel day s).2.1.G ≤
      i.Va * ((simLoop i dv fuel day s).1 : ℚ) := by
  intro fuel
  induction fuel with
  | zero =>
    intro day s hday hcap hG
    simp only [simLoop]
    calc s.G ≤ i.Va * ((day : ℚ) - 1) := hG
    _ ≤ i.Va * (MAX_SIMULATION_DAYS : ℚ) := by
        apply mul_le_mul_of_nonneg_left _ hva
        push_cast at hcap ⊢
        linarith
  | succ n ih =>
    intro day s hday hcap hG
    have hub : (dayStep i dv day s).1.G ≤ s.G + i.Va := dayStep_G_ub i dv day s hva
    by_cases hact : (dayStep i dv day s).1.active = true
    · simp only [simLoop, hact, if_pos]
      apply ih (day + 1) (dayStep i dv day s).1 (by omega)
      · push_cast at hcap ⊢
        linarith
      · push_cast
        calc (dayStep i dv day s).1.G ≤ s.G + i.Va := hub
        _ ≤ i.Va * ((day : ℚ) - 1) + i.Va := by linarith
        _ = i.Va * ((day : ℚ) + 1 - 1) := by ring
    · simp only [Bool.not_eq_true] at hact
      rw [simLoop_stop_first i dv n day s hact]
      calc (dayStep i dv day s).1.G ≤ s.G + i.Va := hub
      _ ≤ i.Va * ((day : ℚ) - 1) + i.Va := by linarith
      _ = i.Va * (day : ℚ) := by ring

theorem simLoop_btFlag_G (i : Inputs) (dv : Derived) :
    ∀ (fuel day : ℕ) (s : SimState), 0 < day →
    (s.btFlag = 1 → dv.dN - EPSILON ≤ s.G) →
    ((simLoop i dv fuel day s).2.1.btFlag = 1 →
      dv.dN - EPSILON ≤ (simLoop i dv fuel day s).2.1.G) := by
  intro fuel
  induction fuel with
  | zero => intro day s hday hprev; simpa [simLoop] using hprev
  | succ n ih =>
    intro day s hday hprev
    have hstep := dayStep_btFlag_G i dv day s hday hprev
    by_cases hact : (dayStep i dv day s).1.active = true
    · simp only [simLoop, hact, if_pos]
      exact ih (day + 1) (dayStep i dv day s).1 (by omega) hstep
    · simp only [Bool.not_eq_true] at hact
      rw [simLoop_stop_first i dv n day s hact]
      exact hstep

theorem simLoop_sums (i : Inputs) (dv : Derived) :
    ∀ (fuel day : ℕ) (s : SimState),
    (simLoop i dv fuel day s).2.1.CR =
      s.CR + (((simLoop i dv fuel day s).2.2).map DailyRec.invCas).sum ∧
    (simLoop i dv fuel day s).2.1.CB =
      s.CB + (((simLoop i dv fuel day s).2.2).map DailyRec.defCasTotal).sum := by
  intro fuel
  induction fuel with
  | zero => intro day s; simp [simLoop]
  | succ n ih =>
    intro day s
    have he := dayStep_rec_eqs i dv day s
    by_cases hact : (dayStep i dv day s).1.active = true
    · simp only [simLoop, hact, if_pos, List.map_cons, List.sum_cons]
      have := ih (day + 1) (dayStep i dv day s).1
      constructor
      · rw [this.1, he.2.2.2.2.2.2.2.2.1]
        ring
      · rw [this.2, he.2.2.2.2.2.2.2.2.2]
        ring
    · simp only [Bool.not_eq_true] at hact
      rw [simLoop_stop_first i dv n day s hact]
      simp only [List.map_cons, List.map_nil, List.sum_cons, List.sum_nil]
      constructor
      · rw [he.2.2.2.2.2.2.2.2.1]
        ring
      · rw [he.2.2.2.2.2.2.2.2.2]
        ring

theorem simLoop_nonneg (i : Inputs) (dv : Derived)
    (hB : 0 ≤ i.B) (hfr : 0 ≤ i.fr) (hVr : 0 ≤ i.Vr)
    (hPs : 0 ≤ dv.Ps) (hw : 0 < dv.wthN) (hd : 0 ≤ dv.deltaR.toQ) :
    ∀ (fuel day : ℕ) (s : SimState), 0 < day → 0 ≤ s.rt → 0 ≤ s.bt →
    (∀ r ∈ (simLoop i dv fuel day s).2.2,
      0 ≤ r.rtSod ∧ 0 ≤ r.rtEod ∧ 0 ≤ r.btSod ∧ 0 ≤ r.btEod) ∧
    List.Chain' (fun a b => a.G ≤ b.G) (simLoop i dv fuel day s).2.2 ∧
    (∀ r ∈ (simLoop i dv fuel day s).2.2, s.G ≤ r.G) := by
  intro fuel
  induction fuel with
  | zero => intro day s hday h0 hb; simp [simLoop]
  | succ n ih =>
    intro day s hday h0 hb
    have he := dayStep_rec_eqs i dv day s
    have hrt := dayStep_rt_mono i dv day s h0 hd
    have hbt := dayStep_bt_nonneg i dv day s hb hB hfr hVr hPs hw
    have hGm := dayStep_G_mono i dv day s hday
    have hrgood : 0 ≤ ((dayStep i dv day s).2).rtSod ∧
        0 ≤ ((dayStep i dv day s).2).rtEod ∧
        0 ≤ ((dayStep i dv day s).2).btSod ∧
        0 ≤ ((dayStep i dv day s).2).btEod := by
      refine ⟨?_, ?_, ?_, ?_⟩
      · rw [he.1]; exact h0
      · rw [he.2.2.1]; exact hrt.2
      · rw [he.2.1]; exact hb
      · rw [he.2.2.2.1]; exact hbt
    by_cases hact : (dayStep i dv day s).1.active = true
    · simp only [simLoop, hact, if_pos]
      have hrec := ih (day + 1) (dayStep i dv day s).1 (by omega) hrt.2 hbt
      refine ⟨?_, ?_, ?_⟩
      · intro r hr
        simp at hr
        rcases hr with hr0 | hrrest
        · subst hr0; exact hrgood
        · exact hrec.1 r hrrest
      · rw [List.chain'_cons']
        refine ⟨?_, hrec.2.1⟩
        intro y hy
        have hymem := List.mem_of_mem_head? hy
        have := hrec.2.2 y hymem
        rw [he.2.2.2.2.1]
        linarith
      · intro r hr
        simp at hr
        rcases hr with hr0 | hrrest
        · subst hr0
          rw [he.2.2.2.2.1]
          linarith
        · have := hrec.2.2 r hrrest
          linarith
    · simp only [Bool.not_eq_true] at hact
      rw [simLoop_stop_first i dv n day s hact]
      refine ⟨?_, ?_, ?_⟩
      · intro r hr
        simp at hr
        subst hr
        exact hrgood
      · simp
      · intro r hr
        simp at hr
        subst hr
        rw [he.2.2.2.2.1]
        linarith

theorem simLoop_rt (i : Inputs) (dv : Derived) (hd : 0 ≤ dv.deltaR.toQ) :
    ∀ (fuel day : ℕ) (s : SimState), 0 ≤ s.rt →
    (∀ r ∈ (simLoop i dv fuel day s).2.2, r.rtEod ≤ r.rtSod) ∧
    List.Chain' (fun a b => b.rtSod = a.rtEod) (simLoop i dv fuel day s).2.2 ∧
    (∀ y ∈ ((simLoop i dv fuel day s).2.2).head?, y.rtSod = s.rt) := by
  intro fuel
  induction fuel with
  | zero => intro day s h0; simp [simLoop]
  | succ n ih =>
    intro day s h0
    have he := dayStep_rec_eqs i dv day s
    have hrt := dayStep_rt_mono i dv day s h0 hd
    by_cases hact : (dayStep i dv day s).1.active = true
    · simp only [simLoop, hact, if_pos]
      have hrec := ih (day + 1) (dayStep i dv day s).1 hrt.2
      refine ⟨?_, ?_, ?_⟩
      · intro r hr
        simp at hr
        rcases hr with hr0 | hrrest
        · subst hr0
          rw [he.1, he.2.2.1]
          exact hrt.1
        · exact hrec.1 r hrrest
      · rw [List.chain'_cons']
        refine ⟨?_, hrec.2.1⟩
        intro y hy
        rw [hrec.2.2 y hy, he.2.2.1]
      · intro y hy
        simp at hy
        subst hy
        exact he.1
    · simp only [Bool.not_eq_true] at hact
      rw [simLoop_stop_first i dv n day s hact]
      refine ⟨?_, by simp, ?_⟩
      · intro r hr
        simp at hr
        subst hr
        rw [he.1, he.2.2.1]
        exact hrt.1
      · intro y hy
        simp at hy
        subst hy
        exact he.1

/-- The scenario's daily loop as run by `simulate`. -/
def runLoop (i : Inputs) (ps : Option ℚ) (rp : ℚ) :
    ℕ × SimState × List DailyRec :=
  simLoop i (derive i ps rp) MAX_SIMULATION_DAYS 1 (initState (derive i ps rp))

/-- The post-hoc halt test of lines 249-254. -/
def postHocHalt (i : Inputs) (ps : Option ℚ) (rp : ℚ) : Prop :=
  (runLoop i ps rp).1 = MAX_SIMULATION_DAYS ∧
  (runLoop i ps rp).2.1.active = true ∧
  (runLoop i ps rp).2.1.btFlag = 0 ∧ (runLoop i ps rp).2.1.hFlag = 0 ∧
  ((runLoop i ps rp).2.1.rt ≤
      (derive i ps rp).H * (runLoop i ps rp).2.1.bt + EPSILON ∨
    (runLoop i ps rp).2.1.rt < EPSILON)

instance (i : Inputs) (ps : Option ℚ) (rp : ℚ) :
    Decidable (postHocHalt i ps rp) := by
  unfold postHocHalt
  infer_instance

theorem simulate_def (i : Inputs) (ps : Option ℚ) (rp : ℚ) :
    simulate i ps rp =
      ({ duration := (runLoop i ps rp).1,
         G := (runLoop i ps rp).2.1.G,
         CR := (runLoop i ps rp).2.1.CR,
         CB := (runLoop i ps rp).2.1.CB,
         invTotal := (runLoop i ps rp).2.1.CR + i.k5,
         defTotal := (runLoop i ps rp).2.1.CB + i.k6,
         btFlag := (runLoop i ps rp).2.1.btFlag,
         hFlag := if postHocHalt i ps rp then 1
                  else (runLoop i ps rp).2.1.hFlag },
       (runLoop i ps rp).2.2) := rfl

/-- The FinalOutcome records a breakthrough. -/
def breakthroughOutcome (o : FinalOutcome) : Prop := o.btFlag = 1

/-- The FinalOutcome records a halt. -/
def haltOutcome (o : FinalOutcome) : Prop := o.hFlag = 1

/-- The scenario ran into the day cap without either flag being set. -/
def dayCapOutcome (o : FinalOutcome) : Prop :=
  o.duration = MAX_SIMULATION_DAYS ∧ o.btFlag = 0 ∧ o.hFlag = 0

instance (o : FinalOutcome) : Decidable (breakthroughOutcome o) := by
  unfold breakthroughOutcome
  infer_instance

instance (o : FinalOutcome) : Decidable (haltOutcome o) := by
  unfold haltOutcome
  infer_instance

instance (o : FinalOutcome) : Decidable (dayCapOutcome o) := by
  unfold dayCapOutcome
  infer_instance

/-- Claim C1 (amended): for every scenario in which the assault velocity
exceeds EPSILON and `delta_r` is not the unbounded sentinel, exactly one of
{breakthrough flag set, halt flag set, day cap reached with neither flag}
holds when the simulation ends (a day-cap ending is reclassified as halted
when the halt condition holds at that point, which the post-hoc test
performs).  The amendment excludes stops triggered by the `Va ≤ EPSILON`
guard or an unbounded `delta_r` while the halt condition is false: there the
code ends the scenario with no flag set and a duration below the day cap,
so none of the three classifications holds (see the counterexample). -/
theorem biddle_C1_amended (i : Inputs) (ps : Option ℚ) (rp : ℚ)
    (hva : EPSILON < i.Va) (hdr : (derive i ps rp).deltaR ≠ EF.inf) :
    (breakthroughOutcome (simulate i ps rp).1 ∧
      ¬haltOutcome (simulate i ps rp).1 ∧ ¬dayCapOutcome (simulate i ps rp).1) ∨
    (¬breakthroughOutcome (simulate i ps rp).1 ∧
      haltOutcome (simulate i ps rp).1 ∧ ¬dayCapOutcome (simulate i ps rp).1) ∨
    (¬breakthroughOutcome (simulate i ps rp).1 ∧
      ¬haltOutcome (simulate i ps rp).1 ∧ dayCapOutcome (simulate i ps rp).1) := by
  have hcases := simLoop_flags i (derive i ps rp) hva hdr MAX_SIMULATION_DAYS 1
    (initState (derive i ps rp)) (by omega) rfl rfl rfl
  rw [show simLoop i (derive i ps rp) MAX_SIMULATION_DAYS 1
        (initState (derive i ps rp)) = runLoop i ps rp from rfl] at hcases
  rw [simulate_def]
  unfold breakthroughOutcome haltOutcome dayCapOutcome
  simp only []
  rcases hcases with ⟨hact, hb, hh, hfd⟩ | ⟨hact, hflags⟩
  · by_cases hph : postHocHalt i ps rp
    · rw [if_pos hph]
      right; left
      refine ⟨by omega, rfl, ?_⟩
      intro hcap
      omega
    · rw [if_neg hph]
      right; right
      exact ⟨by omega, by omega, hfd, hb, hh⟩
  · have hnph : ¬ postHocHalt i ps rp := by
      intro hph
      rw [hph.2.1] at hact
      exact Bool.noConfusion hact
    rw [if_neg hnph]
    rcases hflags with ⟨hb1, hh0⟩ | ⟨hb0, hh1⟩
    · left
      refine ⟨hb1, by omega, ?_⟩
      intro hcap
      omega
    · right; left
      refine ⟨by omega, hh1, ?_⟩
      intro hcap
      omega


def exC1w : Inputs :=
  { R := 1250000, B := 1000000, YR := 1910, YB := 1910, d := 15, fr := 2/5,
    fe := 0, Vr := 100, Va := 9/2, wa := 25, wth := 500, k1 := 5/2,
    k2 := 1/100, k3 := 2/5, k4 := 1, k5 := 200000, k6 := 200000, k7 := 5,
    k8 := 1/10, k9 := 1/100 }

/-- Witness for C1: a concrete default-style scenario (which halts on day 4)
satisfies the amended claim's hypotheses and its conclusion. -/
theorem biddle_C1_witness :
    EPSILON < exC1w.Va ∧
    (derive exC1w (some 1) (1000000000 / 1000000001)).deltaR ≠ EF.inf ∧
    ((breakthroughOutcome (simulate exC1w (some 1) (1000000000 / 1000000001)).1 ∧
       ¬haltOutcome (simulate exC1w (some 1) (1000000000 / 1000000001)).1 ∧
       ¬dayCapOutcome (simulate exC1w (some 1) (1000000000 / 1000000001)).1) ∨
     (¬breakthroughOutcome (simulate exC1w (some 1) (1000000000 / 1000000001)).1 ∧
       haltOutcome (simulate exC1w (some 1) (1000000000 / 1000000001)).1 ∧
       ¬dayCapOutcome (simulate exC1w (some 1) (1000000000 / 1000000001)).1) ∨
     (¬breakthroughOutcome (simulate exC1w (some 1) (1000000000 / 1000000001)).1 ∧
       ¬haltOutcome (simulate exC1w (some 1) (1000000000 / 1000000001)).1 ∧
       dayCapOutcome (simulate exC1w (some 1) (1000000000 / 1000000001)).1)) :=
  ⟨by with_unfolding_all decide, by with_unfolding_all decide,
   biddle_C1_amended exC1w (some 1) (1000000000 / 1000000001)
     (by with_unfolding_all decide) (by with_unfolding_all decide)⟩

def exC1c : Inputs :=
  { R := 1250000, B := 1000000, YR := 1910, YB := 1910, d := 15, fr := 2/5,
    fe := 0, Vr := 100, Va := 0, wa := 25, wth := 500, k1 := 5/2,
    k2 := 1/100, k3 := 2/5, k4 := 1, k5 := 200000, k6 := 200000, k7 := 5,
    k8 := 1/10, k9 := 1/100 }

/-- Counterexample to C1 as stated: with the default inputs except
`Va = 0`, the scenario stops on day 1 via the `Va ≤ EPSILON` guard with the
halt condition false, so the breakthrough flag, the halt flag and the
day-cap classification are all false — not exactly one. -/
theorem biddle_C1_counterexample :
    ¬breakthroughOutcome (simulate exC1c (some 1) (1000000000 / 1000000001)).1 ∧
    ¬haltOutcome (simulate exC1c (some 1) (1000000000 / 1000000001)).1 ∧
    ¬dayCapOutcome (simulate exC1c (some 1) (1000000000 / 1000000001)).1 := by
  with_unfolding_all decide

theorem initState_rt_nonneg (dv : Derived) : 0 ≤ (initState dv).rt := by
  unfold initState
  simp only []
  split <;> linarith

/-- Claim C2: on any simulated day on which both the halt condition and the
end-of-day breakthrough condition are true, the scenario's FinalOutcome is a
breakthrough and not a halt. -/
theorem biddle_C2 (i : Inputs) (ps : Option ℚ) (rp : ℚ) :
    ∀ r ∈ (simulate i ps rp).2, r.haltCondMet = 1 → r.btStatusEod = 1 →
    breakthroughOutcome (simulate i ps rp).1 ∧
    ¬haltOutcome (simulate i ps rp).1 := by
  intro r hr hhc hbs
  rw [simulate_def] at hr ⊢
  have h := simLoop_btS i (derive i ps rp) MAX_SIMULATION_DAYS 1
    (initState (derive i ps rp)) r hr hbs
  rw [show simLoop i (derive i ps rp) MAX_SIMULATION_DAYS 1
        (initState (derive i ps rp)) = runLoop i ps rp from rfl] at h
  have hnph : ¬ postHocHalt i ps rp := by
    intro hph
    have := hph.2.2.1
    omega
  unfold breakthroughOutcome haltOutcome
  simp only []
  rw [if_neg hnph]
  exact ⟨h.1, by omega⟩

theorem b0c_nonneg (i : Inputs) (hB : 0 ≤ i.B) (hfr : i.fr ≤ 1)
    (hwa : 0 ≤ i.wa) : 0 ≤ b0c i := by
  unfold b0c
  have h1 := wthNc_pos i
  have h2 := dNc_pos i
  have : 0 ≤ i.B * (1 - i.fr) * i.wa := by
    apply mul_nonneg (mul_nonneg hB (by linarith)) hwa
  positivity

/-- Claim C3: with valid inputs (non-negative strengths and velocities,
reserve fraction in [0,1]), cumulative distance G is non-decreasing from
each day to the next, and rt and bt are never negative at the start or end
of any simulated day. -/
theorem biddle_C3 (i : Inputs) (ps : Option ℚ) (rp : ℚ)
    (hB : 0 ≤ i.B) (hfr0 : 0 ≤ i.fr) (hfr1 : i.fr ≤ 1) (hwa : 0 ≤ i.wa)
    (hVr : 0 ≤ i.Vr) :
    (∀ r ∈ (simulate i ps rp).2,
      0 ≤ r.rtSod ∧ 0 ≤ r.rtEod ∧ 0 ≤ r.btSod ∧ 0 ≤ r.btEod) ∧
    List.Chain' (fun a b => a.G ≤ b.G) (simulate i ps rp).2 := by
  have h := simLoop_nonneg i (derive i ps rp) hB hfr0 hVr
    (Psc_mem i ps).1 (wthNc_pos i) (deltaRc_toQ_nonneg i ps rp)
    MAX_SIMULATION_DAYS 1 (initState (derive i ps rp)) (by omega)
    (initState_rt_nonneg _) (b0c_nonneg i hB hfr1 hwa)
  rw [simulate_def]
  exact ⟨h.1, h.2.1⟩

/-- Claim C10: the attacker strength rt is non-increasing: on every
simulated day the end-of-day rt is at most the start-of-day rt, and each
day's start-of-day rt equals the previous day's end-of-day rt. -/
theorem biddle_C10 (i : Inputs) (ps : Option ℚ) (rp : ℚ) :
    (∀ r ∈ (simulate i ps rp).2, r.rtEod ≤ r.rtSod) ∧
    List.Chain' (fun a b => b.rtSod = a.rtEod) (simulate i ps rp).2 := by
  have h := simLoop_rt i (derive i ps rp) (deltaRc_toQ_nonneg i ps rp)
    MAX_SIMULATION_DAYS 1 (initState (derive i ps rp))
    (initState_rt_nonneg _)
  rw [simulate_def]
  exact ⟨h.1, h.2.1⟩

/-- Claim C7: the final total casualty figures are the cumulative on-axis
(attacker) and no-off-axis (defender) counters — themselves the sums of the
daily casualty entries — plus the off-axis constants k5 and k6, each added
exactly once per scenario. -/
theorem biddle_C7 (i : Inputs) (ps : Option ℚ) (rp : ℚ) :
    (simulate i ps rp).1.invTotal =
      (((simulate i ps rp).2).map DailyRec.invCas).sum + i.k5 ∧
    (simulate i ps rp).1.defTotal =
      (((simulate i ps rp).2).map DailyRec.defCasTotal).sum + i.k6 ∧
    (simulate i ps rp).1.invTotal = (simulate i ps rp).1.CR + i.k5 ∧
    (simulate i ps rp).1.defTotal = (simulate i ps rp).1.CB + i.k6 := by
  have h := simLoop_sums i (derive i ps rp) MAX_SIMULATION_DAYS 1
    (initState (derive i ps rp))
  rw [show simLoop i (derive i ps rp) MAX_SIMULATION_DAYS 1
        (initState (derive i ps rp)) = runLoop i ps rp from rfl] at h
  have hCR0 : (initState (derive i ps rp)).CR = 0 := rfl
  have hCB0 : (initState (derive i ps rp)).CB = 0 := rfl
  rw [hCR0, hCB0, zero_add, zero_add] at h
  rw [simulate_def]
  exact ⟨by rw [h.1], by rw [h.2], rfl, rfl⟩

/-- Claim C6 (amended): the breakthrough flag is set only when the final
cumulative distance G has reached the epsilon-adjusted depth, `G ≥ d − ε`
(the code tests `G >= d_in - EPSILON`, so G can end an epsilon short of d
itself — see the counterexample); in particular with Va = 4.5 and d = 15 a
breakthrough happens no earlier than day 4. -/
theorem biddle_C6_amended (i : Inputs) (ps : Option ℚ) (rp : ℚ) :
    ((simulate i ps rp).1.btFlag = 1 →
      (derive i ps rp).dN - EPSILON ≤ (simulate i ps rp).1.G) ∧
    (i.Va = 9/2 → i.d = 15 → (simulate i ps rp).1.btFlag = 1 →
      4 ≤ (simulate i ps rp).1.duration) := by
  have hbtG := simLoop_btFlag_G i (derive i ps rp) MAX_SIMULATION_DAYS 1
    (initState (derive i ps rp)) (by omega)
    (by intro h; exact absurd h (by norm_num [initState]))
  rw [show simLoop i (derive i ps rp) MAX_SIMULATION_DAYS 1
        (initState (derive i ps rp)) = runLoop i ps rp from rfl] at hbtG
  constructor
  · rw [simulate_def]
    exact hbtG
  · intro hVa hd hbt
    rw [simulate_def] at hbt ⊢
    simp only [] at hbt ⊢
    have hG := hbtG hbt
    have hub := simLoop_G_ub i (derive i ps rp) (by rw [hVa]; norm_num)
      MAX_SIMULATION_DAYS 1 (initState (derive i ps rp)) (by omega)
      (by norm_num [MAX_SIMULATION_DAYS])
      (by norm_num [initState])
    rw [show simLoop i (derive i ps rp) MAX_SIMULATION_DAYS 1
          (initState (derive i ps rp)) = runLoop i ps rp from rfl] at hub
    have hdN : (derive i ps rp).dN = 15 := by
      rw [show (derive i ps rp).dN = dNc i from rfl]
      unfold dNc
      rw [hd]
      norm_num
    rw [hdN] at hG
    rw [hVa] at hub
    by_contra hc
    push_neg at hc
    have hle3 : (runLoop i ps rp).1 ≤ 3 := by omega
    have hle3' : ((runLoop i ps rp).1 : ℚ) ≤ 3 := by exact_mod_cast hle3
    have heps : EPSILON < 1/2 := by norm_num [EPSILON]
    nlinarith [hG, hub, hle3']

/-- Claim C5 (amended): for every scenario whose depth input exceeds EPSILON
and whose initial start-of-day strengths satisfy `rt ≤ H·bt` on day 1, the
simulation halts on day 1 with zero cumulative distance and zero cumulative
on-axis casualties (and no breakthrough).  The amendment adds `d > ε`:
when the normalized depth is at most EPSILON the day-1 breakthrough test
`G ≥ d − ε` fires on G = 0 and overrides the halt — see the
counterexample. -/
theorem biddle_C5_amended (i : Inputs) (ps : Option ℚ) (rp : ℚ)
    (hd : EPSILON < i.d)
    (hhalt : (initState (derive i ps rp)).rt ≤
      (derive i ps rp).H * (initState (derive i ps rp)).bt) :
    (simulate i ps rp).1.duration = 1 ∧ (simulate i ps rp).1.hFlag = 1 ∧
    (simulate i ps rp).1.btFlag = 0 ∧ (simulate i ps rp).1.G = 0 ∧
    (simulate i ps rp).1.CR = 0 := by
  set dv := derive i ps rp with hdv
  set s0 := initState dv with hs0
  have hdN : dv.dN = i.d := by
    rw [hdv, show (derive i ps rp).dN = dNc i from rfl]
    unfold dNc
    rw [if_neg (by linarith [EPSILON_pos])]
  have hcm : haltCondMetSod dv s0 = 1 := by
    unfold haltCondMetSod
    rw [if_pos (Or.inl (by linarith [EPSILON_pos]))]
  have hG0 : s0.G = 0 := rfl
  have hCR0 : s0.CR = 0 := rfl
  have hbt0 : s0.btFlag = 0 := rfl
  have hlt : s0.G < dv.dN - EPSILON := by
    rw [hG0, hdN]
    linarith
  have hbtS : (if dv.dN - EPSILON ≤ s0.G then (1:ℕ) else 0) = 0 :=
    if_neg (not_le.mpr hlt)
  have hstep : (dayStep i dv 1 s0).1.active = false ∧
      (dayStep i dv 1 s0).1.hFlag = 1 ∧ (dayStep i dv 1 s0).1.btFlag = 0 ∧
      (dayStep i dv 1 s0).1.G = 0 ∧ (dayStep i dv 1 s0).1.CR = 0 := by
    unfold dayStep
    rw [if_pos (Or.inl hcm)]
    unfold finishDay
    simp only [hbtS, hG0, hCR0]
    simp [hcm, hbt0]
    all_goals
      rw [hdN]
      exact hd
  have hloop : runLoop i ps rp =
      (1, (dayStep i dv 1 s0).1, [(dayStep i dv 1 s0).2]) := by
    rw [runLoop, show MAX_SIMULATION_DAYS = 999 + 1 from rfl]
    exact simLoop_stop_first i dv 999 1 s0 hstep.1
  have hnph : ¬ postHocHalt i ps rp := by
    intro hph
    unfold postHocHalt at hph
    rw [hloop] at hph
    exact absurd hph.1 (by norm_num [MAX_SIMULATION_DAYS])
  rw [simulate_def]
  simp only []
  rw [if_neg hnph, hloop]
  exact ⟨rfl, hstep.2.1, hstep.2.2.1, hstep.2.2.2.1, hstep.2.2.2.2⟩

theorem Cac_nonneg (i : Inputs) : 0 ≤ Cac i := by
  unfold Cac
  simp only []
  split <;> linarith

theorem EF.floorz_fin_nonnegOrInf (x : ℚ) :
    (EF.floorz (EF.fin x)).nonnegOrInf = true := by
  unfold EF.floorz EF.lt0
  by_cases h : x < 0
  · simp [h, EF.nonnegOrInf]
  · simp [h, EF.nonnegOrInf]
    linarith

/-- Claim C4 (amended): for valid inputs (k1, k3, B non-negative; fe, fr at
most 1), Ps lies in [0,1] and H, rho2, Ca are non-negative, and delta_r is
non-negative or the positive-infinity sentinel — except in the case where
rho1 is the unbounded sentinel while Va = 0, excluded here by hypothesis:
there IEEE arithmetic makes delta_r NaN, which is neither (see the
counterexample). -/
theorem biddle_C4_amended (i : Inputs) (ps : Option ℚ) (rp : ℚ)
    (hk1 : 0 ≤ i.k1) (hfe : i.fe ≤ 1) (hk3 : 0 ≤ i.k3) (hB : 0 ≤ i.B)
    (hfr : i.fr ≤ 1) (hnn : ¬(rho1c i ps rp = EF.inf ∧ i.Va = 0)) :
    0 ≤ (derive i ps rp).Ps ∧ (derive i ps rp).Ps ≤ 1 ∧
    0 ≤ (derive i ps rp).H ∧ 0 ≤ (derive i ps rp).rho2 ∧
    0 ≤ (derive i ps rp).Ca ∧
    (derive i ps rp).deltaR.nonnegOrInf = true := by
  refine ⟨(Psc_mem i ps).1, (Psc_mem i ps).2, ?_, ?_, Cac_nonneg i, ?_⟩
  · show 0 ≤ Hc i
    unfold Hc
    apply mul_nonneg hk1
    linarith
  · show 0 ≤ rho2c i
    unfold rho2c
    apply div_nonneg _ (wthNc_pos i).le
    apply mul_nonneg (mul_nonneg hk3 hB)
    linarith
  · show (deltaRc i ps rp).nonnegOrInf = true
    unfold deltaRc
    rcases rho1c_shape i ps rp with hinf | ⟨q, hq⟩
    · rw [hinf]
      have hVa : i.Va ≠ 0 := fun h => hnn ⟨hinf, h⟩
      have h2 : EF.mul (EF.fin 2) EF.inf = EF.inf := by norm_num [EF.mul]
      rw [h2]
      rcases lt_trichotomy i.Va 0 with hv | hv | hv
      · have h3 : EF.mul EF.inf (EF.fin i.Va) = EF.ninf := by
          simp only [EF.mul]
          rw [if_neg (by linarith), if_pos hv]
        rw [h3]
        norm_num [EF.add, EF.floorz, EF.lt0, EF.nonnegOrInf]
      · exact absurd hv hVa
      · have h3 : EF.mul EF.inf (EF.fin i.Va) = EF.inf := by
          simp only [EF.mul]
          rw [if_pos hv]
        rw [h3]
        norm_num [EF.add, EF.floorz, EF.lt0, EF.nonnegOrInf]
    · rw [hq]
      simp only [EF.mul, EF.add]
      exact EF.floorz_fin_nonnegOrInf _

def exC2w : Inputs :=
  { R := 0, B := 0, YR := 1900, YB := 1910, d := 0, fr := 2/5, fe := 0,
    Vr := 100, Va := 9/2, wa := 25, wth := 500, k1 := 5/2, k2 := 1/100,
    k3 := 2/5, k4 := 1/2, k5 := 200000, k6 := 200000, k7 := 5, k8 := 1/10,
    k9 := 1/100 }

/-- Witness for C2: a concrete scenario (zero strengths, zero depth) whose
day-1 record has both the halt condition and the breakthrough status set,
and whose FinalOutcome is breakthrough-not-halt. -/
theorem biddle_C2_witness :
    breakthroughOutcome (simulate exC2w (some 1) 0).1 ∧
    ¬haltOutcome (simulate exC2w (some 1) 0).1 :=
  biddle_C2 exC2w (some 1) 0
    { day := 1, rtSod := 0, btSod := 0, reinf := 0, km := 0, G := 0,
      invCas := 0, CR := 0, defCasPoa := 0, defCasRes := 0, defCasTotal := 0,
      CB := 0, rtEod := 0, btEod := 0, haltCondMet := 1, btStatusEod := 1,
      continues := 0 }
    (by with_unfolding_all decide) rfl rfl

def exC3w : Inputs :=
  { R := 1250000, B := 1000000, YR := 1910, YB := 1910, d := 15, fr := 2/5,
    fe := 0, Vr := 100, Va := 9/2, wa := 25, wth := 500, k1 := 5/2,
    k2 := 1/100, k3 := 2/5, k4 := 1, k5 := 200000, k6 := 200000, k7 := 5,
    k8 := 1/10, k9 := 1/100 }

/-- Witness for C3 at the default scenario. -/
theorem biddle_C3_witness :
    (0 ≤ exC3w.B ∧ 0 ≤ exC3w.fr ∧ exC3w.fr ≤ 1 ∧ 0 ≤ exC3w.wa ∧
     0 ≤ exC3w.Vr) ∧
    ((∀ r ∈ (simulate exC3w (some 1) (1000000000 / 1000000001)).2,
       0 ≤ r.rtSod ∧ 0 ≤ r.rtEod ∧ 0 ≤ r.btSod ∧ 0 ≤ r.btEod) ∧
     List.Chain' (fun a b => a.G ≤ b.G)
       (simulate exC3w (some 1) (1000000000 / 1000000001)).2) :=
  ⟨by refine ⟨?_, ?_, ?_, ?_, ?_⟩ <;> with_unfolding_all decide,
   biddle_C3 exC3w (some 1) (1000000000 / 1000000001)
     (by with_unfolding_all decide) (by with_unfolding_all decide)
     (by with_unfolding_all decide) (by with_unfolding_all decide)
     (by with_unfolding_all decide)⟩

def exC10w : Inputs :=
  { R := 1250000, B := 1000000, YR := 1910, YB := 1910, d := 15, fr := 2/5,
    fe := 0, Vr := 100, Va := 9/2, wa := 25, wth := 500, k1 := 5/2,
    k2 := 1/100, k3 := 2/5, k4 := 1, k5 := 200000, k6 := 200000, k7 := 5,
    k8 := 1/10, k9 := 1/100 }

/-- Witness for C10 at the default scenario. -/
theorem biddle_C10_witness :
    (∀ r ∈ (simulate exC10w (some 1) (1000000000 / 1000000001)).2,
      r.rtEod ≤ r.rtSod) ∧
    List.Chain' (fun a b => b.rtSod = a.rtEod)
      (simulate exC10w (some 1) (1000000000 / 1000000001)).2 :=
  biddle_C10 exC10w (some 1) (1000000000 / 1000000001)

def exC4w : Inputs :=
  { R := 1250000, B := 1000000, YR := 1910, YB := 1910, d := 15, fr := 2/5,
    fe := 0, Vr := 100, Va := 9/2, wa := 25, wth := 500, k1 := 5/2,
    k2 := 1/100, k3 := 2/5, k4 := 1, k5 := 200000, k6 := 200000, k7 := 5,
    k8 := 1/10, k9 := 1/100 }

/-- Witness for C4 at the default scenario. -/
theorem biddle_C4_witness :
    (0 ≤ exC4w.k1 ∧ exC4w.fe ≤ 1 ∧ 0 ≤ exC4w.k3 ∧ 0 ≤ exC4w.B ∧
     exC4w.fr ≤ 1 ∧
     ¬(rho1c exC4w (some 1) (1000000000 / 1000000001) = EF.inf ∧
       exC4w.Va = 0)) ∧
    (0 ≤ (derive exC4w (some 1) (1000000000 / 1000000001)).Ps ∧
     (derive exC4w (some 1) (1000000000 / 1000000001)).Ps ≤ 1 ∧
     0 ≤ (derive exC4w (some 1) (1000000000 / 1000000001)).H ∧
     0 ≤ (derive exC4w (some 1) (1000000000 / 1000000001)).rho2 ∧
     0 ≤ (derive exC4w (some 1) (1000000000 / 1000000001)).Ca ∧
     (derive exC4w (some 1) (1000000000 / 1000000001)).deltaR.nonnegOrInf
       = true) :=
  ⟨by refine ⟨?_, ?_, ?_, ?_, ?_, ?_⟩ <;> with_unfolding_all decide,
   biddle_C4_amended exC4w (some 1) (1000000000 / 1000000001)
     (by with_unfolding_all decide) (by with_unfolding_all decide)
     (by with_unfolding_all decide) (by with_unfolding_all decide)
     (by with_unfolding_all decide) (by with_unfolding_all decide)⟩

def exC4c : Inputs :=
  { R := 1250000, B := 1000000, YR := 1920, YB := 1900, d := 15, fr := 2/5,
    fe := 0, Vr := 100, Va := 0, wa := 25, wth := 500, k1 := 5/2,
    k2 := 0, k3 := 2/5, k4 := -1, k5 := 200000, k6 := 200000, k7 := 5,
    k8 := 1/10, k9 := 1/100 }

/-- Counterexample to C4 as stated: with `YR = 1920`, `YB = 1900`, `k2 = 0`,
`k4 = -1` and `Va = 0` (all valid inputs; the pow oracles are the exact
values `math.pow` returns, namely `pow(2, -0.0) = 1` and
`pow(4e9, -1) = 2.5e-10`), `rho1` is the positive-infinity sentinel, so
`delta_r = Ca*0 + 2*inf*0` is IEEE NaN: neither non-negative nor the
unbounded sentinel. -/
theorem biddle_C4_counterexample :
    (derive exC4c (some 1) (1 / 4000000000)).deltaR = EF.nan ∧
    (derive exC4c (some 1) (1 / 4000000000)).deltaR.nonnegOrInf = false := by
  with_unfolding_all decide

def exC5w : Inputs :=
  { R := 0, B := 1000000, YR := 1900, YB := 1910, d := 15, fr := 2/5,
    fe := 0, Vr := 100, Va := 9/2, wa := 25, wth := 500, k1 := 5/2,
    k2 := 1/100, k3 := 2/5, k4 := 1/2, k5 := 200000, k6 := 200000, k7 := 5,
    k8 := 1/10, k9 := 1/100 }

/-- Witness for C5: a scenario with zero attacker strength and depth 15
halts on day 1 with zero distance and zero on-axis casualties. -/
theorem biddle_C5_witness :
    (EPSILON < exC5w.d ∧
     (initState (derive exC5w (some 1) 0)).rt ≤
       (derive exC5w (some 1) 0).H * (initState (derive exC5w (some 1) 0)).bt) ∧
    ((simulate exC5w (some 1) 0).1.duration = 1 ∧
     (simulate exC5w (some 1) 0).1.hFlag = 1 ∧
     (simulate exC5w (some 1) 0).1.btFlag = 0 ∧
     (simulate exC5w (some 1) 0).1.G = 0 ∧
     (simulate exC5w (some 1) 0).1.CR = 0) :=
  ⟨⟨by with_unfolding_all decide, by with_unfolding_all decide⟩,
   biddle_C5_amended exC5w (some 1) 0 (by with_unfolding_all decide)
     (by with_unfolding_all decide)⟩

def exC5c : Inputs :=
  { R := 0, B := 0, YR := 1900, YB := 1910, d := 0, fr := 2/5, fe := 0,
    Vr := 100, Va := 9/2, wa := 25, wth := 500, k1 := 5/2, k2 := 1/100,
    k3 := 2/5, k4 := 1/2, k5 := 200000, k6 := 200000, k7 := 5, k8 := 1/10,
    k9 := 1/100 }

/-- Counterexample to C5 as stated: with depth input 0 (normalized to
EPSILON) and the day-1 halt condition satisfied (`rt = 0 ≤ H·bt`), the
day-1 breakthrough test fires on `G = 0` and overrides the halt, so the
scenario does NOT halt: the halt flag is 0 and the breakthrough flag is 1. -/
theorem biddle_C5_counterexample :
    (initState (derive exC5c (some 1) 0)).rt ≤
      (derive exC5c (some 1) 0).H * (initState (derive exC5c (some 1) 0)).bt ∧
    (simulate exC5c (some 1) 0).1.hFlag = 0 ∧
    (simulate exC5c (some 1) 0).1.btFlag = 1 := by
  with_unfolding_all decide

def exC6w : Inputs :=
  { R := 1250000, B := 1000000, YR := 1910, YB := 1900, d := 15, fr := 2/5,
    fe := 0, Vr := 0, Va := 9/2, wa := 25, wth := 500, k1 := 5/2,
    k2 := 1/100, k3 := 2/5, k4 := 1, k5 := 200000, k6 := 200000, k7 := 5,
    k8 := 1/10, k9 := 1/100 }

/-- Witness for C6: with Va = 4.5 and d = 15 a concrete scenario reaches
breakthrough (on day 4), and the theorem yields `duration ≥ 4`. -/
theorem biddle_C6_witness :
    (exC6w.Va = 9/2 ∧ exC6w.d = 15 ∧
     (simulate exC6w (some 1) 1000000000).1.btFlag = 1) ∧
    4 ≤ (simulate exC6w (some 1) 1000000000).1.duration :=
  ⟨⟨rfl, rfl, by with_unfolding_all decide⟩,
   (biddle_C6_amended exC6w (some 1) 1000000000).2 rfl rfl
     (by with_unfolding_all decide)⟩

def exC6c : Inputs :=
  { R := 1250000, B := 1000000, YR := 1910, YB := 1900,
    d := 6000000001/2000000000, fr := 2/5, fe := 0, Vr := 0, Va := 1,
    wa := 25, wth := 500, k1 := 5/2, k2 := 1/100, k3 := 2/5, k4 := 1,
    k5 := 200000, k6 := 200000, k7 := 5, k8 := 1/10, k9 := 1/100 }

/-- Counterexample to C6 as stated: with depth `d = 3 + 5e-10` and
`Va = 1`, the breakthrough flag is set on day 3 with final `G = 3 < d`,
because the code tests `G ≥ d − EPSILON`, not `G ≥ d`. -/
theorem biddle_C6_counterexample :
    (simulate exC6c (some 1) 1000000000).1.btFlag = 1 ∧
    (simulate exC6c (some 1) 1000000000).1.G <
      (derive exC6c (some 1) 1000000000).dN := by
  with_unfolding_all decide



/-! Scenario enumerator: `float_range` (biddle3.py lines 11-21), the
triple expansion of `get_variable_values_from_user` (lines 44-55), and the
cartesian sweep of `main` (lines 312-337). -/

/-- The ascending `while start <= end + EPSILON` loop of `float_range`
(lines 13-16), with an explicit iteration bound (the Python loop is
unbounded; claim C9 shows `frFuel` iterations always suffice when
`step ≠ 0`). -/
def floatRangeUp : ℕ → ℚ → ℚ → ℚ → List ℚ
  | 0, _, _, _ => []
  | n + 1, s, e, st =>
    if s ≤ e + EPSILON then s :: floatRangeUp n (s + st) e st else []

/-- The descending `while start >= end - EPSILON` loop of `float_range`
(lines 17-20). -/
def floatRangeDown : ℕ → ℚ → ℚ → ℚ → List ℚ
  | 0, _, _, _ => []
  | n + 1, s, e, st =>
    if e - EPSILON ≤ s then s :: floatRangeDown n (s + st) e st else []

/-- Iteration bound sufficient for either loop (any value at least the
number of steps from `start` to the tolerance-adjusted endpoint). -/
def frFuel (s e st : ℚ) : ℕ :=
  if 0 < st then (⌈(e + EPSILON - s) / st⌉).toNat + 1
  else (⌈(s - (e - EPSILON)) / (-st)⌉).toNat + 1

/-- `float_range(start, end, step)` (lines 11-21).  The Python function is
only ever called with `step ≠ 0` (a zero step is rejected with a re-prompt
on line 41-43); for `step ≠ 0` the bounded loops below coincide with the
unbounded Python loops by claim C9. -/
def float_range (s e st : ℚ) : List ℚ :=
  if 0 < st then floatRangeUp (frFuel s e st) s e st
  else floatRangeDown (frFuel s e st) s e st

/-- Python's `round` (banker's rounding, half to even) on a rational. -/
def pyRound (x : ℚ) : ℤ :=
  let f := ⌊x⌋
  let r := x - f
  if r < 1/2 then f
  else if 1/2 < r then f + 1
  else if f % 2 = 0 then f else f + 1

/-- `round(v, 6)` (line 55). -/
def round6 (v : ℚ) : ℚ := (pyRound (v * 1000000) : ℚ) / 1000000

/-- Expansion of a `start,end,step` triple
(`get_variable_values_from_user`, lines 44-55): pad the endpoint by
EPSILON in the direction of the step, run `float_range`, fall back to
`[start]` when the range is empty, and round the values to 6 decimals. -/
def expandTriple (start e step : ℚ) : List ℚ :=
  let values := if 0 < step then float_range start (e + EPSILON) step
                else float_range start (e - EPSILON) step
  if values = [] then [start] else values.map round6

/-- `itertools.product` over per-variable value lists (line 313): the
first list varies slowest, the last fastest. -/
def itertoolsProduct : List (List ℚ) → List (List ℚ)
  | [] => [[]]
  | l :: ls => l.flatMap (fun x => (itertoolsProduct ls).map (fun t => x :: t))

/-- Scenario enumeration with identifiers (lines 330-333):
`scenario_id = i + 1` over `enumerate(all_scenario_combinations)`. -/
def enumerateScenarios (ls : List (List ℚ)) : List (ℕ × List ℚ) :=
  (itertoolsProduct ls).enum.map (fun p => (p.1 + 1, p.2))

theorem floatRangeUp_stop (n : ℕ) (s e st : ℚ) (h : ¬ s ≤ e + EPSILON) :
    floatRangeUp n s e st = [] := by
  cases n <;> simp [floatRangeUp, h]

theorem floatRangeDown_stop (n : ℕ) (s e st : ℚ) (h : ¬ e - EPSILON ≤ s) :
    floatRangeDown n s e st = [] := by
  cases n <;> simp [floatRangeDown, h]

theorem floatRangeUp_stable (e st : ℚ) (hst : 0 < st) :
    ∀ (k : ℕ) (s : ℚ) (n m : ℕ), (e + EPSILON - s) / st < (k : ℚ) →
    k ≤ n → k ≤ m → floatRangeUp n s e st = floatRangeUp m s e st := by
  intro k
  induction k with
  | zero =>
    intro s n m hk hn hm
    have hs : ¬ s ≤ e + EPSILON := by
      intro hc
      have : 0 ≤ (e + EPSILON - s) / st := div_nonneg (by linarith) hst.le
      simp at hk
      linarith
    rw [floatRangeUp_stop n s e st hs, floatRangeUp_stop m s e st hs]
  | succ k ih =>
    intro s n m hk hn hm
    obtain ⟨n', rfl⟩ : ∃ n', n = n' + 1 := ⟨n - 1, by omega⟩
    obtain ⟨m', rfl⟩ : ∃ m', m = m' + 1 := ⟨m - 1, by omega⟩
    by_cases hs : s ≤ e + EPSILON
    · simp only [floatRangeUp, if_pos hs]
      rw [ih (s + st) n' m' _ (by omega) (by omega)]
      have : (e + EPSILON - (s + st)) / st = (e + EPSILON - s) / st - 1 := by
        field_simp
        ring
      rw [this]
      push_cast at hk ⊢
      linarith
    · simp only [floatRangeUp, if_neg hs]

theorem floatRangeDown_stable (e st : ℚ) (hst : st < 0) :
    ∀ (k : ℕ) (s : ℚ) (n m : ℕ), (s - (e - EPSILON)) / (-st) < (k : ℚ) →
    k ≤ n → k ≤ m → floatRangeDown n s e st = floatRangeDown m s e st := by
  intro k
  induction k with
  | zero =>
    intro s n m hk hn hm
    have hs : ¬ e - EPSILON ≤ s := by
      intro hc
      have : 0 ≤ (s - (e - EPSILON)) / (-st) := by
        apply div_nonneg (by linarith)
        linarith
      push_cast at hk
      linarith
    rw [floatRangeDown_stop n s e st hs, floatRangeDown_stop m s e st hs]
  | succ k ih =>
    intro s n m hk hn hm
    obtain ⟨n', rfl⟩ : ∃ n', n = n' + 1 := ⟨n - 1, by omega⟩
    obtain ⟨m', rfl⟩ : ∃ m', m = m' + 1 := ⟨m - 1, by omega⟩
    by_cases hs : e - EPSILON ≤ s
    · simp only [floatRangeDown, if_pos hs]
      rw [ih (s + st) n' m' _ (by omega) (by omega)]
      have : (s + st - (e - EPSILON)) / (-st) = (s - (e - EPSILON)) / (-st) - 1 := by
        have hne : (-st) ≠ 0 := by linarith
        rw [show s + st - (e - EPSILON) = (s - (e - EPSILON)) + st by ring,
          add_div, show st / (-st) = -1 by rw [div_eq_iff hne]; ring]
        ring
      rw [this]
      push_cast at hk ⊢
      linarith
    · simp only [floatRangeDown, if_neg hs]

theorem frFuel_gt_up (s e st : ℚ) (hst : 0 < st) :
    (e + EPSILON - s) / st < (frFuel s e st : ℚ) := by
  unfold frFuel
  rw [if_pos hst]
  push_cast
  have h1 : (e + EPSILON - s) / st ≤ (⌈(e + EPSILON - s) / st⌉ : ℚ) :=
    Int.le_ceil _
  have h2 : ((⌈(e + EPSILON - s) / st⌉ : ℤ) : ℚ) ≤
      ((⌈(e + EPSILON - s) / st⌉.toNat : ℤ) : ℚ) := by
    exact_mod_cast Int.self_le_toNat _
  push_cast at h2
  linarith

theorem frFuel_gt_down (s e st : ℚ) (hst : st < 0) :
    (s - (e - EPSILON)) / (-st) < (frFuel s e st : ℚ) := by
  unfold frFuel
  rw [if_neg (by linarith)]
  push_cast
  have h1 : (s - (e - EPSILON)) / (-st) ≤
      (⌈(s - (e - EPSILON)) / (-st)⌉ : ℚ) := Int.le_ceil _
  have h2 : ((⌈(s - (e - EPSILON)) / (-st)⌉ : ℤ) : ℚ) ≤
      ((⌈(s - (e - EPSILON)) / (-st)⌉.toNat : ℤ) : ℚ) := by
    exact_mod_cast Int.self_le_toNat _
  push_cast at h2
  linarith

theorem floatRangeUp_head (n : ℕ) (s e st : ℚ) :
    ∀ y ∈ (floatRangeUp n s e st).head?, y = s := by
  cases n with
  | zero => simp [floatRangeUp]
  | succ n =>
    intro y hy
    unfold floatRangeUp at hy
    split at hy <;> simp_all

theorem floatRangeUp_sorted (st : ℚ) (hst : 0 < st) :
    ∀ (n : ℕ) (s e : ℚ), List.Chain' (fun a b => a < b) (floatRangeUp n s e st) := by
  intro n
  induction n with
  | zero => intro s e; simp [floatRangeUp]
  | succ n ih =>
    intro s e
    unfold floatRangeUp
    split
    · rw [List.chain'_cons']
      refine ⟨?_, ih (s + st) e⟩
      intro y hy
      rw [floatRangeUp_head n (s + st) e st y hy]
      linarith
    · simp

theorem floatRangeUp_bound (e st : ℚ) :
    ∀ (n : ℕ) (s : ℚ), ∀ x ∈ floatRangeUp n s e st, x ≤ e + EPSILON := by
  intro n
  induction n with
  | zero => intro s x hx; simp [floatRangeUp] at hx
  | succ n ih =>
    intro s x hx
    unfold floatRangeUp at hx
    split at hx
    · simp at hx
      rcases hx with h | h
      · subst h; assumption
      · exact ih (s + st) x h
    · simp at hx

theorem floatRangeDown_head (n : ℕ) (s e st : ℚ) :
    ∀ y ∈ (floatRangeDown n s e st).head?, y = s := by
  cases n with
  | zero => simp [floatRangeDown]
  | succ n =>
    intro y hy
    unfold floatRangeDown at hy
    split at hy <;> simp_all

theorem floatRangeDown_sorted (st : ℚ) (hst : st < 0) :
    ∀ (n : ℕ) (s e : ℚ),
    List.Chain' (fun a b => b < a) (floatRangeDown n s e st) := by
  intro n
  induction n with
  | zero => intro s e; simp [floatRangeDown]
  | succ n ih =>
    intro s e
    unfold floatRangeDown
    split
    · rw [List.chain'_cons']
      refine ⟨?_, ih (s + st) e⟩
      intro y hy
      rw [floatRangeDown_head n (s + st) e st y hy]
      linarith
    · simp

theorem floatRangeDown_bound (e st : ℚ) :
    ∀ (n : ℕ) (s : ℚ), ∀ x ∈ floatRangeDown n s e st, e - EPSILON ≤ x := by
  intro n
  induction n with
  | zero => intro s x hx; simp [floatRangeDown] at hx
  | succ n ih =>
    intro s x hx
    unfold floatRangeDown at hx
    split at hx
    · simp at hx
      rcases hx with h | h
      · subst h; assumption
      · exact ih (s + st) x h
    · simp at hx

/-- Claim C9: for every `(start, end, step)` triple with `step ≠ 0` the
range-expansion loop terminates — any iteration budget of at least
`frFuel` steps produces the same, final list `float_range s e st` — and
that list is strictly ascending and bounded above by `end + EPSILON` for a
positive step, strictly descending and bounded below by `end − EPSILON`
for a negative step. -/
theorem biddle_C9 (s e st : ℚ) (hst : st ≠ 0) :
    (∀ n : ℕ, frFuel s e st ≤ n →
      (if 0 < st then floatRangeUp n s e st else floatRangeDown n s e st) =
        float_range s e st) ∧
    (0 < st → List.Chain' (fun a b => a < b) (float_range s e st) ∧
      ∀ x ∈ float_range s e st, x ≤ e + EPSILON) ∧
    (st < 0 → List.Chain' (fun a b => b < a) (float_range s e st) ∧
      ∀ x ∈ float_range s e st, e - EPSILON ≤ x) := by
  refine ⟨?_, ?_, ?_⟩
  · intro n hn
    unfold float_range
    rcases lt_trichotomy st 0 with hlt | h0 | hgt
    · rw [if_neg (by linarith), if_neg (by linarith)]
      exact floatRangeDown_stable e st hlt (frFuel s e st) s n (frFuel s e st)
        (frFuel_gt_down s e st hlt) hn (le_refl _)
    · exact absurd h0 hst
    · rw [if_pos hgt, if_pos hgt]
      exact floatRangeUp_stable e st hgt (frFuel s e st) s n (frFuel s e st)
        (frFuel_gt_up s e st hgt) hn (le_refl _)
  · intro hgt
    unfold float_range
    rw [if_pos hgt]
    exact ⟨floatRangeUp_sorted st hgt _ s e, floatRangeUp_bound e st _ s⟩
  · intro hlt
    unfold float_range
    rw [if_neg (by linarith)]
    exact ⟨floatRangeDown_sorted st hlt _ s e, floatRangeDown_bound e st _ s⟩

/-- Witness for C9 at the triple `(1, 3, 1)`:
`float_range 1 3 1 = [1, 2, 3]`. -/
theorem biddle_C9_witness :
    ((1 : ℚ) ≠ 0 ∧ float_range 1 3 1 = [1, 2, 3]) ∧
    ((∀ n : ℕ, frFuel 1 3 1 ≤ n →
       (if (0:ℚ) < 1 then floatRangeUp n 1 3 1 else floatRangeDown n 1 3 1) =
         float_range 1 3 1) ∧
     ((0:ℚ) < 1 → List.Chain' (fun a b => a < b) (float_range 1 3 1) ∧
       ∀ x ∈ float_range 1 3 1, x ≤ 3 + EPSILON) ∧
     ((1:ℚ) < 0 → List.Chain' (fun a b => b < a) (float_range 1 3 1) ∧
       ∀ x ∈ float_range 1 3 1, 3 - EPSILON ≤ x)) :=
  ⟨⟨by norm_num, by with_unfolding_all decide⟩, biddle_C9 1 3 1 (by norm_num)⟩

theorem itertoolsProduct_singletons :
    ∀ vs : List ℚ, itertoolsProduct (vs.map (fun v => [v])) = [vs]
  | [] => rfl
  | v :: vs => by
    simp [itertoolsProduct, itertoolsProduct_singletons vs]

theorem floatRangeUp_succ (n : ℕ) (s e st : ℚ) :
    floatRangeUp (n + 1) s e st =
      if s ≤ e + EPSILON then s :: floatRangeUp n (s + st) e st else [] := rfl

theorem pyRound_natCast (n : ℕ) : pyRound ((n : ℚ)) = n := by
  unfold pyRound
  rw [Int.floor_natCast]
  norm_num

theorem round6_natMul (n : ℕ) (x : ℚ) (hx : x * 1000000 = ((n : ℕ) : ℚ)) :
    round6 x = (n : ℚ) / 1000000 := by
  unfold round6
  rw [hx, pyRound_natCast]
  norm_num

theorem expandTriple_R :
    expandTriple 1000000 1200000 100000 = [1000000, 1100000, 1200000] := by
  have h0 : (0 : ℚ) < 100000 := by norm_num
  have hceil : ⌈(1200000 + EPSILON + EPSILON - 1000000) / (100000 : ℚ)⌉ = 3 := by
    rw [Int.ceil_eq_iff]
    constructor <;> norm_num [EPSILON]
  have hf : frFuel 1000000 (1200000 + EPSILON) 100000 = 4 := by
    unfold frFuel
    rw [if_pos h0, hceil]
    rfl
  have e1 : (1000000 : ℚ) ≤ 1200000 + EPSILON + EPSILON := by norm_num [EPSILON]
  have e2 : (1000000 + 100000 : ℚ) ≤ 1200000 + EPSILON + EPSILON := by
    norm_num [EPSILON]
  have e3 : (1000000 + 100000 + 100000 : ℚ) ≤ 1200000 + EPSILON + EPSILON := by
    norm_num [EPSILON]
  have e4 : ¬ (1000000 + 100000 + 100000 + 100000 : ℚ) ≤
      1200000 + EPSILON + EPSILON := by
    norm_num [EPSILON]
  have hup : floatRangeUp 4 1000000 (1200000 + EPSILON) 100000 =
      [1000000, 1100000, 1200000] := by
    rw [show (4 : ℕ) = 3 + 1 from rfl, floatRangeUp_succ, if_pos e1,
        show (3 : ℕ) = 2 + 1 from rfl, floatRangeUp_succ, if_pos e2,
        show (2 : ℕ) = 1 + 1 from rfl, floatRangeUp_succ, if_pos e3,
        show (1 : ℕ) = 0 + 1 from rfl, floatRangeUp_succ, if_neg e4]
    norm_num
  unfold expandTriple float_range
  rw [if_pos h0, if_pos h0, hf, hup,
    if_neg (by simp : ¬([1000000, 1100000, 1200000] : List ℚ) = [])]
  rw [List.map_cons, List.map_cons, List.map_cons, List.map_nil]
  rw [round6_natMul 1000000000000 1000000 (by norm_num),
      round6_natMul 1100000000000 1100000 (by norm_num),
      round6_natMul 1200000000000 1200000 (by norm_num)]
  norm_num

/-- Claim C8: a sweep in which the first variable (R) is the triple
`(1000000, 1200000, 100000)` and all 18 other variables are single values
produces exactly 3 scenarios, with scenario identifiers 1, 2, 3 assigned
in traversal order to R = 1000000, 1100000, 1200000 respectively. -/
theorem biddle_C8 (v2 v3 v4 v5 v6 v7 v8 v9 v10 v11 v12 v13 v14 v15 v16 v17
    v18 v19 : ℚ) :
    enumerateScenarios
      (expandTriple 1000000 1200000 100000 ::
       [v2] :: [v3] :: [v4] :: [v5] :: [v6] :: [v7] :: [v8] :: [v9] ::
       [v10] :: [v11] :: [v12] :: [v13] :: [v14] :: [v15] :: [v16] ::
       [v17] :: [v18] :: [v19] :: []) =
      [(1, 1000000 :: v2 :: v3 :: v4 :: v5 :: v6 :: v7 :: v8 :: v9 ::
          v10 :: v11 :: v12 :: v13 :: v14 :: v15 :: v16 :: v17 :: v18 ::
          v19 :: []),
       (2, 1100000 :: v2 :: v3 :: v4 :: v5 :: v6 :: v7 :: v8 :: v9 ::
          v10 :: v11 :: v12 :: v13 :: v14 :: v15 :: v16 :: v17 :: v18 ::
          v19 :: []),
       (3, 1200000 :: v2 :: v3 :: v4 :: v5 :: v6 :: v7 :: v8 :: v9 ::
          v10 :: v11 :: v12 :: v13 :: v14 :: v15 :: v16 :: v17 :: v18 ::
          v19 :: [])] := by
  have hs : itertoolsProduct
      ([v2] :: [v3] :: [v4] :: [v5] :: [v6] :: [v7] :: [v8] :: [v9] ::
       [v10] :: [v11] :: [v12] :: [v13] :: [v14] :: [v15] :: [v16] ::
       [v17] :: [v18] :: [v19] :: []) =
      [[v2, v3, v4, v5, v6, v7, v8, v9, v10, v11, v12, v13, v14, v15, v16,
        v17, v18, v19]] :=
    itertoolsProduct_singletons
      [v2, v3, v4, v5, v6, v7, v8, v9, v10, v11, v12, v13, v14, v15, v16,
       v17, v18, v19]
  rw [expandTriple_R]
  unfold enumerateScenarios
  rw [show itertoolsProduct
      (((1000000 : ℚ) :: 1100000 :: 1200000 :: []) ::
       [v2] :: [v3] :: [v4] :: [v5] :: [v6] :: [v7] :: [v8] :: [v9] ::
       [v10] :: [v11] :: [v12] :: [v13] :: [v14] :: [v15] :: [v16] ::
       [v17] :: [v18] :: [v19] :: []) =
      ((1000000 : ℚ) :: 1100000 :: 1200000 :: []).flatMap
        (fun x => (itertoolsProduct
          ([v2] :: [v3] :: [v4] :: [v5] :: [v6] :: [v7] :: [v8] :: [v9] ::
           [v10] :: [v11] :: [v12] :: [v13] :: [v14] :: [v15] :: [v16] ::
           [v17] :: [v18] :: [v19] :: [])).map (fun t => x :: t))
      from rfl, hs]
  rfl

end Biddle
